import Mathlib

/-!
Verification of the session/protocol layer of the Agentmonitor repository
(`src-tauri/src/backend/app_server.rs` and
`src-tauri/src/backend/claude_adapter.rs`) against its natural-language
specification.

The embedding is shallow: JSON values are modelled by an inductive `Json`
type; `serde_json::from_str` is an external library, so each input line is
carried together with its parse outcome (`RawLine.parsed`).  The stdout
transport-reader task of `spawn_workspace_session` and the per-turn stdout
task of `ClaudeAdapterSession::handle_turn_start` are modelled as pure
folds over the list of lines, producing the mutated state together with the
list of deliveries (main-sink emissions, pending-request resolutions,
background-callback sends).  File-system persistence (`ThreadStore::save`)
and process spawning/killing are external collaborators; the store
mutations themselves are modelled exactly.
-/

/-- Shallow model of a `serde_json::Value`.  Numbers are modelled as exact
integers (the protocol fields involved — ids, timestamps, costs — are only
ever inspected through `as_u64`/`as_str`, so float refinements are not
needed).  Objects keep their field order; lookup returns the first match,
as in the source all constructed objects have distinct keys. -/
inductive Json where
  | null : Json
  | bool (b : Bool) : Json
  | num (n : Int) : Json
  | str (s : String) : Json
  | arr (elems : List Json) : Json
  | obj (fields : List (String × Json)) : Json

/-- Rust `Value::get(key)` on an object; `None` on non-objects. -/
def Json.get : Json → String → Option Json
  | .obj fields, key => fields.lookup key
  | _, _ => none

/-- Rust `Value::as_str`. -/
def Json.asStr : Json → Option String
  | .str s => some s
  | _ => none

/-- Rust `Value::as_u64`: the number must be a non-negative integer fitting u64. -/
def Json.asU64 : Json → Option Nat
  | .num n => if 0 ≤ n ∧ n < (2 : Int) ^ 64 then some n.toNat else none
  | _ => none

/-- Rust `Value::as_bool`. -/
def Json.asBool : Json → Option Bool
  | .bool b => some b
  | _ => none

/-- One line read from the child process stdout, together with the outcome of
`serde_json::from_str` on it (serde is an external library; the reader
code only branches on its result). -/
structure RawLine where
  raw : String
  parsed : Except String Json

/-! ## Transport reader of `spawn_workspace_session` (app_server.rs 595-669) -/

/-- Function `extract_thread_id` (app_server.rs 19-34): look in `params` for
`threadId`, else `thread_id`, take it as a string; otherwise fall back to
`params.thread.id` as a string. -/
def extract_thread_id (value : Json) : Option String :=
  match value.get "params" with
  | none => none
  | some params =>
      (((params.get "threadId").or (params.get "thread_id")).bind Json.asStr).or
        (((params.get "thread").bind (fun thread => thread.get "id")).bind Json.asStr)

/-- The reader-relevant state of a `WorkspaceSession`: the key set of the
pending-request table (`pending: Mutex<HashMap<u64, oneshot::Sender>>`)
and the key set of `background_thread_callbacks`.  The reader task only
removes pending entries and only reads the callback table. -/
structure ReaderState where
  pending : List Nat
  callbacks : List String

/-- A delivery performed by the reader task: an emission to the main event
sink, the resolution of a pending request slot, or a send on a registered
background-callback channel. -/
inductive ReaderOutput where
  | emit (msg : Json) : ReaderOutput
  | resolve (id : Nat) (msg : Json) : ReaderOutput
  | background (threadId : String) (msg : Json) : ReaderOutput

/-- The `cli/parseError` diagnostic event built at app_server.rs 604-610. -/
def parseErrorEvent (err raw : String) : Json :=
  .obj [("method", .str "cli/parseError"),
        ("params", .obj [("error", .str err), ("raw", .str raw)])]

/-- Resolution of a pending entry (app_server.rs 625-627 and 646-648):
`pending.remove(&id)` either yields the sender — which is fed the value —
or the message is dropped. -/
def resolvePending (st : ReaderState) (id : Nat) (value : Json) :
    ReaderState × List ReaderOutput :=
  if st.pending.contains id then
    ({ st with pending := st.pending.erase id }, [.resolve id value])
  else
    (st, [])

/-- Background routing of a broadcast message (app_server.rs 629-645 and
650-666): if the extracted thread id has a registered callback the message
goes to that channel, otherwise it is emitted to the main sink. -/
def routeBroadcast (st : ReaderState) (value : Json) :
    ReaderState × List ReaderOutput :=
  match extract_thread_id value with
  | some tid =>
      if st.callbacks.contains tid then (st, [.background tid value])
      else (st, [.emit value])
  | none => (st, [.emit value])

/-- Classification of one parsed message (app_server.rs 616-667). -/
def routeParsed (st : ReaderState) (value : Json) :
    ReaderState × List ReaderOutput :=
  match (value.get "id").bind Json.asU64 with
  | some id =>
      if ((value.get "result").isSome || (value.get "error").isSome) then
        resolvePending st id value
      else if (value.get "method").isSome then
        routeBroadcast st value
      else
        resolvePending st id value
  | none =>
      if (value.get "method").isSome then routeBroadcast st value
      else (st, [])

/-- Model of the Rust check `line.trim().is_empty()`: the line consists of whitespace
only. -/
def isBlankLine (s : String) : Bool :=
  s.data.all Char.isWhitespace

/-- One iteration of the transport-reader loop (app_server.rs 597-668):
skip blank lines; on a parse failure emit one `cli/parseError` diagnostic
and continue; otherwise classify and route. -/
def readerStep (st : ReaderState) (l : RawLine) : ReaderState × List ReaderOutput :=
  if isBlankLine l.raw then (st, [])
  else
    match l.parsed with
    | .error err => (st, [.emit (parseErrorEvent err l.raw)])
    | .ok value => routeParsed st value

/-- The whole reader loop over the sequence of lines produced by the child
process, returning the final state and all deliveries in order. -/
def readerGo (st : ReaderState) : List RawLine → ReaderState × List ReaderOutput
  | [] => (st, [])
  | l :: ls =>
      let step := readerStep st l
      let rest := readerGo step.1 ls
      (rest.1, step.2 ++ rest.2)

/-- Number of resolutions of pending id `id` among a delivery list. -/
def countResolves (id : Nat) (outs : List ReaderOutput) : Nat :=
  outs.countP (fun o =>
    match o with
    | .resolve i _ => i == id
    | _ => false)

/-! ## Thread store of the Claude adapter (claude_adapter.rs 19-49) -/

/-- Struct `ThreadMetadata` (claude_adapter.rs 19-26).  Timestamps are `u64` in
the source; they are modelled as `Nat` with the 64-bit range made explicit
where serde deserialization is concerned. -/
structure ThreadMetadata where
  claude_session_id : Option String
  name : Option String
  created_at : Nat
  updated_at : Nat
  archived : Bool
deriving DecidableEq, Inhabited

/-- Struct `ThreadStore` (claude_adapter.rs 28-31): a map from canonical thread
id to metadata.  The `HashMap` is modelled as an association list whose
keys are pairwise distinct (the `HashMap` invariant is taken as a
hypothesis where it matters). -/
structure ThreadStore where
  threads : List (String × ThreadMetadata)
deriving DecidableEq, Inhabited

/-- Model of `HashMap::get_mut` followed by a field update: rewrite the (unique)
entry with the given key, leave the map unchanged when the key is absent. -/
def updateFirst (key : String) (f : ThreadMetadata → ThreadMetadata) :
    List (String × ThreadMetadata) → List (String × ThreadMetadata)
  | [] => []
  | (k, m) :: rest =>
      if k == key then (k, f m) :: rest else (k, m) :: updateFirst key f rest

/-! ### serde serialization of the store (claude_adapter.rs 41-48)

`ThreadStore::save` writes `serde_json::to_string_pretty(self)`.  The
derived `Serialize` carries no rename attributes, so the JSON keys are the
Rust field names verbatim.  The text encoding and the file write are
external (serde / std::fs); the JSON value is modelled exactly. -/

/-- serde encoding of an `Option<String>` field: `None ↦ null`. -/
def optStrJson : Option String → Json
  | none => .null
  | some s => .str s

/-- The field list of one serialized `ThreadMetadata` record: the Rust
field names, in declaration order. -/
def metaFields (sid nm : Option String) (ca ua : Nat) (ar : Bool) :
    List (String × Json) :=
  [("claude_session_id", optStrJson sid),
   ("name", optStrJson nm),
   ("created_at", .num ca),
   ("updated_at", .num ua),
   ("archived", .bool ar)]

/-- The JSON value produced by the derived `Serialize` for one
`ThreadMetadata` record. -/
def ThreadMetadata.toJson (m : ThreadMetadata) : Json :=
  .obj (metaFields m.claude_session_id m.name m.created_at m.updated_at m.archived)

/-- The JSON document produced by the derived `Serialize` for the whole
`ThreadStore`. -/
def ThreadStore.toJson (s : ThreadStore) : Json :=
  .obj [("threads", .obj (s.threads.map (fun p => (p.1, p.2.toJson))))]

/-! ### serde deserialization (claude_adapter.rs 33-39)

`ThreadStore::load` reads the file and runs `serde_json::from_str`,
falling back to the empty store on any error.  The derived `Deserialize`
is modelled field by field: `Option` fields accept `null` and tolerate
absence, `u64` fields require a non-negative integer below `2^64`, `bool`
fields require a boolean, unknown fields are ignored. -/

/-- serde decoding of an `Option<String>` field from its lookup result. -/
def decodeOptString : Option Json → Option (Option String)
  | none => some none
  | some .null => some none
  | some (.str s) => some (some s)
  | some _ => none

/-- serde decoding of a `u64` field from its lookup result. -/
def decodeU64 : Option Json → Option Nat
  | some j => j.asU64
  | none => none

/-- serde decoding of a `bool` field from its lookup result. -/
def decodeBool : Option Json → Option Bool
  | some j => j.asBool
  | none => none

/-- The derived `Deserialize` for one `ThreadMetadata` record. -/
def ThreadMetadata.fromJson : Json → Option ThreadMetadata
  | .obj fields =>
      match decodeOptString (fields.lookup "claude_session_id"),
            decodeOptString (fields.lookup "name"),
            decodeU64 (fields.lookup "created_at"),
            decodeU64 (fields.lookup "updated_at"),
            decodeBool (fields.lookup "archived") with
      | some sid, some nm, some ca, some ua, some ar =>
          some ⟨sid, nm, ca, ua, ar⟩
      | _, _, _, _, _ => none
  | _ => none

/-- Decoding of the `threads` map, entry by entry in document order. -/
def decodeThreads : List (String × Json) → Option (List (String × ThreadMetadata))
  | [] => some []
  | (k, j) :: rest =>
      match ThreadMetadata.fromJson j, decodeThreads rest with
      | some m, some ms => some ((k, m) :: ms)
      | _, _ => none

/-- The derived `Deserialize` for the whole `ThreadStore`. -/
def ThreadStore.fromJson : Json → Option ThreadStore
  | .obj fields =>
      match fields.lookup "threads" with
      | some (.obj entries) =>
          match decodeThreads entries with
          | some ms => some ⟨ms⟩
          | none => none
      | _ => none
  | _ => none

/-! ## Claude adapter request handlers (claude_adapter.rs 250-601)

Each handler is modelled as a pure function from the store (and the
request params) to the new store and the `Result<Value, String>` returned
to the caller.  `ThreadStore::save` performs file I/O and is external; on
the foreground paths modelled here its success case is taken (its failure
would propagate the error verbatim and leave the in-memory map as
computed). Fresh UUIDs and `now_epoch()` readings are passed as
parameters. -/

/-- The value `Ok(json!(.. result ..))`: the empty success result. -/
def okEmptyResult : Json := .obj [("result", .obj [])]

/-- The result shape shared by `thread/start`, `thread/resume` and
`thread/fork`: a `result` object holding `threadId` and a `thread`
object with the same `id`. -/
def threadIdResult (id : String) : Json :=
  .obj [("result", .obj [("threadId", .str id),
                         ("thread", .obj [("id", .str id)])])]

/-- Handler `handle_thread_start` (claude_adapter.rs 250-271). -/
def handle_thread_start (store : ThreadStore) (thread_id : String) (now : Nat) :
    ThreadStore × Except String Json :=
  let meta : ThreadMetadata := ⟨none, none, now, now, false⟩
  (⟨(thread_id, meta) :: store.threads⟩, .ok (threadIdResult thread_id))

/-- Handler `handle_thread_resume` (claude_adapter.rs 273-288). -/
def handle_thread_resume (store : ThreadStore) (params : Json) :
    Except String Json :=
  match (params.get "threadId").bind Json.asStr with
  | none => .error "missing threadId"
  | some thread_id =>
      if (store.threads.lookup thread_id).isSome then
        .ok (threadIdResult thread_id)
      else
        .error "thread not found"

/-- One listed record of `handle_thread_list` (claude_adapter.rs 296-304). -/
def listedThreadJson (id : String) (meta : ThreadMetadata) : Json :=
  .obj [("id", .str id),
        ("name", optStrJson meta.name),
        ("createdAt", .num meta.created_at),
        ("updatedAt", .num meta.updated_at),
        ("archived", .bool meta.archived)]

/-- Handler `handle_thread_list` (claude_adapter.rs 290-312): archived records are
filtered out of the listing. -/
def handle_thread_list (store : ThreadStore) : Except String Json :=
  let threads := (store.threads.filter (fun p => !p.2.archived)).map
    (fun p => listedThreadJson p.1 p.2)
  .ok (.obj [("result", .obj [("threads", .arr threads),
                              ("hasMore", .bool false)])])

/-- Handler `handle_thread_archive` (claude_adapter.rs 314-326): mark the record
archived when present; absent ids are ignored; always save and return the
empty result. -/
def handle_thread_archive (store : ThreadStore) (params : Json) (now : Nat) :
    ThreadStore × Except String Json :=
  match (params.get "threadId").bind Json.asStr with
  | none => (store, .error "missing threadId")
  | some thread_id =>
      let store' : ThreadStore :=
        ⟨updateFirst thread_id (fun m => { m with archived := true, updated_at := now })
          store.threads⟩
      (store', .ok okEmptyResult)

/-- Handler `handle_thread_name_set` (claude_adapter.rs 328-344). -/
def handle_thread_name_set (store : ThreadStore) (params : Json) (now : Nat) :
    ThreadStore × Except String Json :=
  match (params.get "threadId").bind Json.asStr with
  | none => (store, .error "missing threadId")
  | some thread_id =>
      let nm := ((params.get "name").bind Json.asStr).getD ""
      let store' : ThreadStore :=
        ⟨updateFirst thread_id (fun m => { m with name := some nm, updated_at := now })
          store.threads⟩
      (store', .ok okEmptyResult)

/-- The `thread/fork` arm of `CliAdapter::send_request`
(claude_adapter.rs 550-578). -/
def handle_thread_fork (store : ThreadStore) (params : Json)
    (new_id : String) (now : Nat) : ThreadStore × Except String Json :=
  match (params.get "threadId").bind Json.asStr with
  | none => (store, .error "missing threadId")
  | some source_id =>
      match store.threads.lookup source_id with
      | none => (store, .error "thread not found")
      | some source =>
          let meta : ThreadMetadata :=
            ⟨none, source.name.map (fun n => n ++ " (fork)"), now, now, false⟩
          (⟨(new_id, meta) :: store.threads⟩, .ok (threadIdResult new_id))

/-! ## Turn lifecycle of the Claude adapter (claude_adapter.rs 66-532) -/

/-- The argument vector assembled by `build_claude_command`
(claude_adapter.rs 73-83) before it is handed to the external process
launcher (`build_codex_command_with_bin` resolves the executable and
prepends any user-configured extra arguments; it is an external
collaborator and adds nothing to this vector). -/
def build_claude_command_args (session_id : Option String) (prompt : String) :
    List String :=
  let args := ["-p", "--output-format", "stream-json", "--verbose"]
  let args := args ++ (match session_id with
    | some sid => ["--resume", sid]
    | none => [])
  args ++ [prompt]

/-- The resumable-session lookup performed at the start of
`handle_turn_start` (claude_adapter.rs 398-404). -/
def sessionIdFor (store : ThreadStore) (thread_id : String) : Option String :=
  (store.threads.lookup thread_id).bind (fun meta => meta.claude_session_id)

/-- Function `extract_session_id_from_line` (claude_adapter.rs 204-216): an `init`
system record yields its `session_id` string. -/
def extract_session_id_from_line (l : RawLine) : Option String :=
  match l.parsed.toOption with
  | none => none
  | some event =>
      match (event.get "type").bind Json.asStr with
      | none => none
      | some t =>
          if t = "system" then
            if (event.get "subtype").bind Json.asStr = some "init" then
              (event.get "session_id").bind Json.asStr
            else none
          else none

/-- The translated `turn/started` event (claude_adapter.rs 122-128). -/
def turnStartedEvent (thread_id turn_id : String) : Json :=
  .obj [("method", .str "turn/started"),
        ("params", .obj [("threadId", .str thread_id),
                         ("turnId", .str turn_id)])]

/-- The translated `item/agentMessage/delta` event
(claude_adapter.rs 139-147). -/
def agentDeltaEvent (thread_id turn_id item_id text : String) : Json :=
  .obj [("method", .str "item/agentMessage/delta"),
        ("params", .obj [("threadId", .str thread_id),
                         ("turnId", .str turn_id),
                         ("itemId", .str item_id),
                         ("delta", .str text)])]

/-- The translated `item/started` event (claude_adapter.rs 159-170). -/
def itemStartedEvent (thread_id turn_id tool_id tool_name : String) : Json :=
  .obj [("method", .str "item/started"),
        ("params", .obj [("threadId", .str thread_id),
                         ("turnId", .str turn_id),
                         ("item", .obj [("id", .str tool_id),
                                        ("type", .str "tool_use"),
                                        ("name", .str tool_name)])])]

/-- The translated `item/completed` event (claude_adapter.rs 177-187). -/
def itemCompletedEvent (thread_id turn_id tool_use_id : String) : Json :=
  .obj [("method", .str "item/completed"),
        ("params", .obj [("threadId", .str thread_id),
                         ("turnId", .str turn_id),
                         ("item", .obj [("id", .str tool_use_id),
                                        ("type", .str "tool_use")])])]

/-- The translated `turn/completed` event (claude_adapter.rs 190-198);
the `json!` macro renders an absent `Option<&Value>` as `null`. -/
def turnCompletedEvent (thread_id turn_id : String)
    (cost duration : Option Json) : Json :=
  .obj [("method", .str "turn/completed"),
        ("params", .obj [("threadId", .str thread_id),
                         ("turnId", .str turn_id),
                         ("costUsd", cost.getD .null),
                         ("durationMs", duration.getD .null)])]

/-- Function `parse_stream_json_line` (claude_adapter.rs 108-202): the fixed table
translating one proprietary stream record into a canonical event; records
with no canonical counterpart yield `none`. -/
def parse_stream_json_line (l : RawLine) (thread_id turn_id : String) :
    Option Json :=
  match l.parsed.toOption with
  | none => none
  | some event =>
      match (event.get "type").bind Json.asStr with
      | none => none
      | some event_type =>
          let msg_item_id := "msg_" ++ turn_id
          if event_type = "system" then
            let subtype := ((event.get "subtype").bind Json.asStr).getD ""
            if subtype = "init" then some (turnStartedEvent thread_id turn_id)
            else none
          else if event_type = "content_block_delta" then
            match event.get "delta" with
            | none => none
            | some delta =>
                match (delta.get "type").bind Json.asStr with
                | none => none
                | some delta_type =>
                    if delta_type = "text_delta" then
                      match (delta.get "text").bind Json.asStr with
                      | none => none
                      | some text =>
                          some (agentDeltaEvent thread_id turn_id msg_item_id text)
                    else none
          else if event_type = "content_block_start" then
            match event.get "content_block" with
            | none => none
            | some block =>
                match (block.get "type").bind Json.asStr with
                | none => none
                | some block_type =>
                    if block_type = "tool_use" then
                      let tool_name := ((block.get "name").bind Json.asStr).getD "tool"
                      let tool_id := ((block.get "id").bind Json.asStr).getD ""
                      some (itemStartedEvent thread_id turn_id tool_id tool_name)
                    else none
          else if event_type = "tool_result" then
            let tool_use_id := ((event.get "tool_use_id").bind Json.asStr).getD ""
            some (itemCompletedEvent thread_id turn_id tool_use_id)
          else if event_type = "result" then
            some (turnCompletedEvent thread_id turn_id
              (event.get "cost_usd") (event.get "duration_ms"))
          else none

/-- A delivery performed by the per-turn stdout task: either an emission
through the main event emitter or a send on the registered
background-callback channel for the thread of the turn. -/
inductive TurnOutput where
  | emit (msg : Json) : TurnOutput
  | background (threadId : String) (msg : Json) : TurnOutput

/-- State carried by the per-turn stdout task: the shared thread store and
the `got_result` flag (claude_adapter.rs 453). -/
structure TurnState where
  store : ThreadStore
  gotResult : Bool

/-- Delivery of one canonical event by the turn task
(claude_adapter.rs 471-484): the background channel registered for the
thread of the turn takes priority over the main sink. -/
def turnDeliver (callbacks : List String) (thread_id : String) (event : Json) :
    TurnOutput :=
  if callbacks.contains thread_id then .background thread_id event
  else .emit event

/-- One iteration of the per-turn stdout loop (claude_adapter.rs 455-486):
scan the line for an init record and persist its session id against the
thread of the turn (best effort — a failing save is logged, claude_adapter.rs
461-463); translate the line; mark `got_result` on a terminal event;
deliver. -/
def turnTaskStep (callbacks : List String) (thread_id turn_id : String)
    (now : Nat) (st : TurnState) (l : RawLine) : TurnState × List TurnOutput :=
  let store1 : ThreadStore :=
    match extract_session_id_from_line l with
    | some sid =>
        ⟨updateFirst thread_id
          (fun m => { m with claude_session_id := some sid, updated_at := now })
          st.store.threads⟩
    | none => st.store
  match parse_stream_json_line l thread_id turn_id with
  | some event =>
      let got := st.gotResult ||
        ((event.get "method").bind Json.asStr == some "turn/completed")
      (⟨store1, got⟩, [turnDeliver callbacks thread_id event])
  | none => (⟨store1, st.gotResult⟩, [])

/-- The per-turn stdout loop over a sequence of lines. -/
def turnTaskGo (callbacks : List String) (thread_id turn_id : String)
    (now : Nat) (st : TurnState) :
    List RawLine → TurnState × List TurnOutput
  | [] => (st, [])
  | l :: ls =>
      let step := turnTaskStep callbacks thread_id turn_id now st l
      let rest := turnTaskGo callbacks thread_id turn_id now step.1 ls
      (rest.1, step.2 ++ rest.2)

/-- The synthesized terminal event built when the stream ends without a
`result` record (claude_adapter.rs 489-495). -/
def fallbackTurnCompleted (thread_id turn_id : String) : Json :=
  .obj [("method", .str "turn/completed"),
        ("params", .obj [("threadId", .str thread_id),
                         ("turnId", .str turn_id)])]

/-- End-of-stream handling of the turn task (claude_adapter.rs 488-510):
when no terminal record was observed, deliver the synthesized
`turn/completed`, again preferring the background channel. -/
def turnTaskFinish (callbacks : List String) (thread_id turn_id : String)
    (st : TurnState) : List TurnOutput :=
  if st.gotResult then []
  else [turnDeliver callbacks thread_id (fallbackTurnCompleted thread_id turn_id)]

/-- The whole per-turn stdout task spawned by `handle_turn_start`
(claude_adapter.rs 451-517): process every line of the transient child process
output, then apply the terminal guarantee.  Returns the final thread store
and all deliveries in order. -/
def turnTask (callbacks : List String) (thread_id turn_id : String)
    (now : Nat) (store : ThreadStore) (lines : List RawLine) :
    ThreadStore × List TurnOutput :=
  let run := turnTaskGo callbacks thread_id turn_id now ⟨store, false⟩ lines
  (run.1.store, run.2 ++ turnTaskFinish callbacks thread_id turn_id run.1)

/-- Whether a stream line is a terminal `result` record. -/
def isResultRecord (l : RawLine) : Bool :=
  match l.parsed.toOption with
  | some v => ((v.get "type").bind Json.asStr) == some "result"
  | none => false

/-- Whether a turn-task delivery carries a `turn/completed` event. -/
def isTerminalDelivery (o : TurnOutput) : Bool :=
  match o with
  | .emit msg => ((msg.get "method").bind Json.asStr) == some "turn/completed"
  | .background _ msg => ((msg.get "method").bind Json.asStr) == some "turn/completed"

/-- Whether a turn-task delivery goes to the main event sink. -/
def isMainSinkDelivery (o : TurnOutput) : Bool :=
  match o with
  | .emit _ => true
  | .background _ _ => false

/-- The `turn/interrupt` arm of `CliAdapter::send_request`
(claude_adapter.rs 584-591): take and kill the active child (killing the
process tree is an external collaborator), answer with the empty result.
The boolean models whether an active child handle was present. -/
def turn_interrupt (_active_child : Bool) : Bool × Except String Json :=
  (false, .ok okEmptyResult)

/-- The deliveries still performed by the per-turn stdout task after an
interrupt: the task is an independent `tokio::spawn` that nothing cancels,
so it first drains whatever lines remain in the pipe (`remaining`, empty
once the output of the killed process ends) and then runs the end-of-stream
handling, `processed` being the lines it had consumed before the
interrupt. -/
def turnTaskAfterInterrupt (callbacks : List String) (thread_id turn_id : String)
    (now : Nat) (store : ThreadStore)
    (processed remaining : List RawLine) : List TurnOutput :=
  let before := turnTaskGo callbacks thread_id turn_id now ⟨store, false⟩ processed
  let after := turnTaskGo callbacks thread_id turn_id now before.1 remaining
  after.2 ++ turnTaskFinish callbacks thread_id turn_id after.1

/-! ## Concrete inputs used to instantiate the claims -/

/-- A concrete response line with id 7 and a `result` field, used to
instantiate claim C1. -/
def c1ResponseValue : Json :=
  .obj [("id", .num 7), ("result", .obj [("ok", .bool true)])]

/-- The concrete raw line carrying `c1ResponseValue`. -/
def c1ResponseLine : RawLine :=
  ⟨"response-line", .ok c1ResponseValue⟩

/-- A concrete malformed line for claim C3. -/
def c3BadLine : RawLine :=
  ⟨"not-json", .error "expected value at line 1 column 1"⟩

/-- A concrete terminal `result` record of the proprietary stream, used
for claim C2. -/
def c2ResultLine : RawLine :=
  ⟨"result-line", .ok (.obj [("type", .str "result"),
                             ("cost_usd", .num 1),
                             ("duration_ms", .num 100)])⟩

/-- A concrete stream line translated to no canonical event (claim C2). -/
def c2PingLine : RawLine :=
  ⟨"ping-line", .ok (.obj [("type", .str "ping")])⟩

/-- A concrete `init` record carrying resumable session id `s1`
(claim C4). -/
def c4InitLine : RawLine :=
  ⟨"init-line", .ok (.obj [("type", .str "system"),
                           ("subtype", .str "init"),
                           ("session_id", .str "s1"),
                           ("tools", .arr [])])⟩

/-- Stored metadata of thread `t1` before any resumable id is known
(claim C4). -/
def c4Meta : ThreadMetadata := ⟨none, none, 1, 1, false⟩

/-- A store mapping `t1` to `c4Meta` (claim C4). -/
def c4Store : ThreadStore := ⟨[("t1", c4Meta)]⟩

/-! ### JSON shape checkers used for the persisted-document claims -/

/-- The field names of a JSON object, in order. -/
def Json.keys : Json → List String
  | .obj fields => fields.map Prod.fst
  | _ => []

/-- Type check for `string|null`. -/
def isStrOrNullJson : Json → Bool
  | .str _ => true
  | .null => true
  | _ => false

/-- Type check for `integer`. -/
def isIntJson : Json → Bool
  | .num _ => true
  | _ => false

/-- Type check for `boolean`. -/
def isBoolJson : Json → Bool
  | .bool _ => true
  | _ => false

/-- The named field exists and satisfies the given type check. -/
def checkField (j : Json) (key : String) (p : Json → Bool) : Bool :=
  match j.get key with
  | some v => p v
  | none => false

/-- The per-thread record shape claimed by the specification: exactly
five fields named `externalSessionId` (string or null), `name` (string
or null), `createdAt` (integer), `updatedAt` (integer) and `archived`
(boolean). -/
def specThreadRecordShape (j : Json) : Bool :=
  (j.keys.length == 5) &&
    checkField j "externalSessionId" isStrOrNullJson &&
    checkField j "name" isStrOrNullJson &&
    checkField j "createdAt" isIntJson &&
    checkField j "updatedAt" isIntJson &&
    checkField j "archived" isBoolJson

/-- The per-thread record shape the code actually persists: the Rust
field names of `ThreadMetadata` (no serde rename attribute exists). -/
def codeThreadRecordShape (j : Json) : Bool :=
  (j.keys.length == 5) &&
    checkField j "claude_session_id" isStrOrNullJson &&
    checkField j "name" isStrOrNullJson &&
    checkField j "created_at" isIntJson &&
    checkField j "updated_at" isIntJson &&
    checkField j "archived" isBoolJson

/-- A concrete metadata record for claim C6. -/
def c6Meta : ThreadMetadata := ⟨some "sess-1", some "My thread", 1000, 2000, false⟩

/-- A concrete one-thread store for claim C6. -/
def c6Store : ThreadStore := ⟨[("t1", c6Meta)]⟩

/-- The thread ids appearing in the `thread/list` response (the archived
filter of claude_adapter.rs 295). -/
def listedThreadIds (store : ThreadStore) : List String :=
  (store.threads.filter (fun p => !p.2.archived)).map Prod.fst

/-- A concrete metadata record for claim C8. -/
def c8Meta : ThreadMetadata := ⟨some "sess-8", some "Archive me", 10, 20, false⟩

/-- A concrete two-thread store for claim C8. -/
def c8Store : ThreadStore := ⟨[("tt", c8Meta), ("uu", ⟨none, none, 5, 5, false⟩)]⟩

/-- Concrete `thread/archive` params for claim C8. -/
def c8Params : Json := .obj [("threadId", .str "tt")]

/-- A concrete store for the round-trip claim C9. -/
def c9Store : ThreadStore :=
  ⟨[("t1", ⟨some "s1", some "Test Thread", 1000, 2000, false⟩),
    ("t2", ⟨none, none, 3000, 4000, true⟩)]⟩

/-- A concrete store not containing thread `zz` (claim C10). -/
def c10Store : ThreadStore := ⟨[("aa", ⟨some "s", none, 1, 2, false⟩)]⟩

/-- Concrete params naming the absent thread `zz` (claim C10). -/
def c10Params : Json := .obj [("threadId", .str "zz"), ("name", .str "n")]

/-! ## Helper lemmas about the transport reader -/

theorem countResolves_nil (id : Nat) : countResolves id [] = 0 := rfl

theorem countResolves_append (id : Nat) (a b : List ReaderOutput) :
    countResolves id (a ++ b) = countResolves id a + countResolves id b :=
  List.countP_append _ _ _

/-- Every branch of the reader step leaves the callback table untouched
(the reader task only reads `background_thread_callbacks`). -/
theorem readerStep_callbacks (st : ReaderState) (l : RawLine) :
    (readerStep st l).1.callbacks = st.callbacks := by
  unfold readerStep routeParsed routeBroadcast resolvePending
  split
  · rfl
  · split
    · rfl
    · split
      · split
        · split <;> rfl
        · split
          · split
            · split <;> rfl
            · rfl
          · split <;> rfl
      · split
        · split
          · split <;> rfl
          · rfl
        · rfl

/-- Case analysis of one reader step as far as the pending table is
concerned: either the pending table is untouched and no resolution is
delivered, or exactly one registered id is resolved and erased. -/
theorem readerStep_pending_cases (id : Nat) (st : ReaderState) (l : RawLine) :
    ((readerStep st l).1.pending = st.pending ∧
      countResolves id (readerStep st l).2 = 0) ∨
    (∃ i v, i ∈ st.pending ∧
      (readerStep st l).1.pending = st.pending.erase i ∧
      (readerStep st l).2 = [ReaderOutput.resolve i v]) := by
  unfold readerStep routeParsed routeBroadcast resolvePending
  split
  · exact Or.inl ⟨rfl, rfl⟩
  · split
    · exact Or.inl ⟨rfl, rfl⟩
    · rename_i v _
      split
      · rename_i i _
        split
        · split
          · rename_i hmem
            exact Or.inr ⟨i, v, List.elem_iff.mp hmem, rfl, rfl⟩
          · exact Or.inl ⟨rfl, rfl⟩
        · split
          · split
            · split
              · exact Or.inl ⟨rfl, rfl⟩
              · exact Or.inl ⟨rfl, rfl⟩
            · exact Or.inl ⟨rfl, rfl⟩
          · split
            · rename_i hmem
              exact Or.inr ⟨i, v, List.elem_iff.mp hmem, rfl, rfl⟩
            · exact Or.inl ⟨rfl, rfl⟩
      · split
        · split
          · split
            · exact Or.inl ⟨rfl, rfl⟩
            · exact Or.inl ⟨rfl, rfl⟩
          · exact Or.inl ⟨rfl, rfl⟩
        · exact Or.inl ⟨rfl, rfl⟩

/-- Across any run of the reader loop, a given request id is resolved at
most once — the pending table starts with pairwise distinct keys (the
`HashMap` invariant) and the reader only ever removes entries. -/
theorem readerGo_countResolves_le (rid : Nat) :
    ∀ (ls : List RawLine) (st : ReaderState), st.pending.Nodup →
      countResolves rid (readerGo st ls).2 ≤ (if rid ∈ st.pending then 1 else 0) := by
  intro ls
  induction ls with
  | nil =>
      intro st _
      simp [readerGo, countResolves_nil]
  | cons l ls ih =>
      intro st hnd
      show countResolves rid ((readerStep st l).2 ++ (readerGo (readerStep st l).1 ls).2)
        ≤ (if rid ∈ st.pending then 1 else 0)
      rw [countResolves_append]
      rcases readerStep_pending_cases rid st l with ⟨hp, hc⟩ | ⟨i, v, hi, hp, hout⟩
      · have := ih (readerStep st l).1 (by rw [hp]; exact hnd)
        rw [hp] at this
        omega
      · have hnd' : (readerStep st l).1.pending.Nodup := by
          rw [hp]; exact hnd.erase i
        have hrest := ih (readerStep st l).1 hnd'
        by_cases hii : i = rid
        · have hnot : rid ∉ (readerStep st l).1.pending := by
            rw [hp, hii]
            exact hnd.not_mem_erase
          rw [if_neg hnot] at hrest
          have hhead : countResolves rid [ReaderOutput.resolve i v] = 1 := by
            simp [countResolves, hii]
          rw [hout, hhead, if_pos (hii ▸ hi)]
          omega
        · have hhead : countResolves rid [ReaderOutput.resolve i v] = 0 := by
            simp [countResolves, hii]
          rw [hout, hhead]
          by_cases hid : rid ∈ st.pending
          · rw [if_pos hid]
            have : countResolves rid (readerGo (readerStep st l).1 ls).2 ≤ 1 := by
              refine le_trans hrest ?_
              split <;> omega
            omega
          · have hnot : rid ∉ (readerStep st l).1.pending := by
              rw [hp]
              intro hmem
              exact hid (List.erase_subset i st.pending hmem)
            rw [if_neg hnot] at hrest
            rw [if_neg hid]
            omega

/-! ## Claim C1 -/

/-- Claim C1: for every line read by the transport reader that parses as
JSON with a numeric `id` and a `result` or `error` field, if the pending
table contains that id the entry is removed and its completion slot is
filled exactly once with the parsed message (never twice over the rest of
the run); if no entry exists the message is dropped silently — no event is
emitted and no state changes. -/
theorem c1_response_correlation (st : ReaderState) (l : RawLine) (v : Json)
    (rid : Nat) (rest : List RawLine)
    (hblank : isBlankLine l.raw = false)
    (hparse : l.parsed = Except.ok v)
    (hid : (v.get "id").bind Json.asU64 = some rid)
    (hre : ((v.get "result").isSome || (v.get "error").isSome) = true)
    (hnodup : st.pending.Nodup) :
    (rid ∈ st.pending →
      readerStep st l =
        ({ st with pending := st.pending.erase rid },
         [ReaderOutput.resolve rid v])) ∧
    (rid ∉ st.pending → readerStep st l = (st, [])) ∧
    countResolves rid (readerGo st (l :: rest)).2 ≤ 1 := by
  have hstep : readerStep st l = resolvePending st rid v := by
    unfold readerStep routeParsed
    simp [hblank, hparse, hid, hre]
  refine ⟨?_, ?_, ?_⟩
  · intro hmem
    rw [hstep]
    unfold resolvePending
    rw [if_pos (List.elem_iff.mpr hmem)]
  · intro hmem
    rw [hstep]
    unfold resolvePending
    rw [if_neg (fun h => hmem (List.elem_iff.mp h))]
  · refine le_trans (readerGo_countResolves_le rid (l :: rest) st hnodup) ?_
    split <;> omega

theorem c1_response_correlation_witness :
    readerStep ⟨[7], []⟩ c1ResponseLine =
      (⟨[], []⟩, [ReaderOutput.resolve 7 c1ResponseValue]) ∧
    countResolves 7 (readerGo ⟨[7], []⟩ [c1ResponseLine]).2 ≤ 1 := by
  have h := c1_response_correlation ⟨[7], []⟩ c1ResponseLine c1ResponseValue 7 []
    (by decide) rfl (by decide) (by decide) (by decide)
  exact ⟨h.1 (by decide), h.2.2⟩

/-! ## Claim C3 -/

/-- Claim C3: for every non-blank line that fails to parse as JSON, the
reader emits exactly one diagnostic `cli/parseError` event carrying the
parse error text and the raw line, leaves all state unchanged, and
continues with the next line — a parse failure never terminates the loop. -/
theorem c3_parse_failure_diagnostic (st : ReaderState) (l : RawLine)
    (err : String) (rest : List RawLine)
    (hblank : isBlankLine l.raw = false)
    (hparse : l.parsed = Except.error err) :
    readerStep st l = (st, [ReaderOutput.emit (parseErrorEvent err l.raw)]) ∧
    readerGo st (l :: rest) =
      ((readerGo st rest).1,
       ReaderOutput.emit (parseErrorEvent err l.raw) :: (readerGo st rest).2) := by
  have hstep : readerStep st l = (st, [.emit (parseErrorEvent err l.raw)]) := by
    unfold readerStep
    simp [hblank, hparse]
  refine ⟨hstep, ?_⟩
  show ((readerGo (readerStep st l).1 rest).1,
        (readerStep st l).2 ++ (readerGo (readerStep st l).1 rest).2) = _
  rw [hstep]
  rfl

theorem c3_parse_failure_diagnostic_witness :
    readerStep ⟨[3], ["T"]⟩ c3BadLine =
      (⟨[3], ["T"]⟩,
       [ReaderOutput.emit
          (parseErrorEvent "expected value at line 1 column 1" "not-json")]) := by
  exact (c3_parse_failure_diagnostic ⟨[3], ["T"]⟩ c3BadLine
    "expected value at line 1 column 1" [] (by decide) rfl).1

/-! ## Helper lemmas about background routing -/

/-- A parse-error diagnostic carries no thread identity. -/
theorem extract_thread_id_parseError (err raw : String) :
    extract_thread_id (parseErrorEvent err raw) = none := rfl

/-- Bool helper: a boolean that is not `true` is `false`. -/
theorem bool_not_true_eq_false {b : Bool} (h : ¬ b = true) : b = false := by
  cases b
  · rfl
  · exact absurd rfl h

/-- Any message `routeBroadcast` emits to the main sink is the routed
message itself, and its extracted thread identity (if any) has no
registered callback. -/
theorem routeBroadcast_emit_cases (st : ReaderState) (v msg : Json)
    (h : ReaderOutput.emit msg ∈ (routeBroadcast st v).2) :
    msg = v ∧ ∀ t, extract_thread_id v = some t →
      st.callbacks.contains t = false := by
  unfold routeBroadcast at h
  cases hext : extract_thread_id v with
  | none =>
      simp only [hext] at h
      simp only [List.mem_singleton] at h
      injection h with h
      subst h
      exact ⟨rfl, fun t ht => by cases ht⟩
  | some t0 =>
      simp only [hext] at h
      by_cases hc : st.callbacks.contains t0 = true
      · rw [if_pos hc] at h
        simp at h
      · rw [if_neg hc] at h
        simp only [List.mem_singleton] at h
        injection h with h
        subst h
        refine ⟨rfl, fun t ht => ?_⟩
        injection ht with ht
        subst ht
        exact bool_not_true_eq_false hc

/-- Helper `resolvePending` never emits to the main sink. -/
theorem resolvePending_no_emit (st : ReaderState) (i : Nat) (v msg : Json)
    (h : ReaderOutput.emit msg ∈ (resolvePending st i v).2) : False := by
  unfold resolvePending at h
  split at h <;> simp at h

/-- Any message the message classifier emits to the main sink is the
parsed message itself, and its extracted thread identity (if any) has no
registered callback. -/
theorem routeParsed_emit_cases (st : ReaderState) (v msg : Json)
    (h : ReaderOutput.emit msg ∈ (routeParsed st v).2) :
    msg = v ∧ ∀ t, extract_thread_id v = some t →
      st.callbacks.contains t = false := by
  unfold routeParsed at h
  cases hid : (v.get "id").bind Json.asU64 with
  | some i =>
      simp only [hid] at h
      split at h
      · exact absurd h (resolvePending_no_emit st i v msg)
      · split at h
        · exact routeBroadcast_emit_cases st v msg h
        · exact absurd h (resolvePending_no_emit st i v msg)
  | none =>
      simp only [hid] at h
      split at h
      · exact routeBroadcast_emit_cases st v msg h
      · simp at h

/-- Any message one reader step emits to the main sink either is the
parse-error diagnostic (whose thread identity is empty) or is a parsed
message whose extracted thread identity has no registered callback. -/
theorem readerStep_emit_cases (st : ReaderState) (l : RawLine) (msg : Json)
    (h : ReaderOutput.emit msg ∈ (readerStep st l).2) :
    ∀ t, extract_thread_id msg = some t → st.callbacks.contains t = false := by
  unfold readerStep at h
  split at h
  · simp at h
  · split at h
    · rename_i err _
      simp only [List.mem_singleton] at h
      cases h
      intro t ht
      rw [extract_thread_id_parseError] at ht
      cases ht
    · rename_i v _
      have hc := routeParsed_emit_cases st v msg h
      intro t ht
      exact hc.2 t (hc.1 ▸ ht)

/-- Loop form: while a callback registration for `tid` exists, no message
whose extracted thread identity is `tid` is ever emitted to the main sink
by the reader. -/
theorem readerGo_no_emit_for_registered (tid : String) :
    ∀ (ls : List RawLine) (st : ReaderState),
      st.callbacks.contains tid = true →
      ∀ msg, ReaderOutput.emit msg ∈ (readerGo st ls).2 →
        extract_thread_id msg ≠ some tid := by
  intro ls
  induction ls with
  | nil =>
      intro st _ msg h
      simp [readerGo] at h
  | cons l ls ih =>
      intro st hreg msg h
      have hsplit : ReaderOutput.emit msg ∈ (readerStep st l).2 ∨
          ReaderOutput.emit msg ∈ (readerGo (readerStep st l).1 ls).2 := by
        have : (readerGo st (l :: ls)).2
            = (readerStep st l).2 ++ (readerGo (readerStep st l).1 ls).2 := rfl
        rw [this] at h
        exact List.mem_append.mp h
      rcases hsplit with hstep | hrest
      · intro ht
        have := readerStep_emit_cases st l msg hstep tid ht
        rw [hreg] at this
        cases this
      · have hreg' : (readerStep st l).1.callbacks.contains tid = true := by
          rw [readerStep_callbacks]
          exact hreg
        exact ih (readerStep st l).1 hreg' msg hrest

/-! ## Helper lemmas about the per-turn stdout task -/

/-- With a registration for the thread of the turn in place, every delivery of
the turn task goes to the background channel. -/
theorem turnDeliver_registered (cb : List String) (tid : String) (e : Json)
    (hreg : cb.contains tid = true) :
    turnDeliver cb tid e = TurnOutput.background tid e := by
  unfold turnDeliver
  rw [if_pos hreg]

/-- Every delivery of the turn-task loop is a `turnDeliver` of some
translated event. -/
theorem turnTaskGo_mem (cb : List String) (tid turnId : String) (now : Nat) :
    ∀ (ls : List RawLine) (st : TurnState) (o : TurnOutput),
      o ∈ (turnTaskGo cb tid turnId now st ls).2 →
      ∃ e, o = turnDeliver cb tid e := by
  intro ls
  induction ls with
  | nil =>
      intro st o h
      simp [turnTaskGo] at h
  | cons l ls ih =>
      intro st o h
      have : (turnTaskGo cb tid turnId now st (l :: ls)).2
          = (turnTaskStep cb tid turnId now st l).2 ++
            (turnTaskGo cb tid turnId now (turnTaskStep cb tid turnId now st l).1 ls).2 := rfl
      rw [this] at h
      rcases List.mem_append.mp h with hstep | hrest
      · unfold turnTaskStep at hstep
        cases hp : parse_stream_json_line l tid turnId with
        | some e =>
            rw [hp] at hstep
            simp only [List.mem_singleton] at hstep
            exact ⟨e, hstep⟩
        | none =>
            rw [hp] at hstep
            simp at hstep
      · exact ih (turnTaskStep cb tid turnId now st l).1 o hrest

/-- Every delivery of the whole turn task (loop plus terminal guarantee)
is a `turnDeliver` of some event. -/
theorem turnTask_mem (cb : List String) (tid turnId : String) (now : Nat)
    (store : ThreadStore) (lines : List RawLine) (o : TurnOutput)
    (h : o ∈ (turnTask cb tid turnId now store lines).2) :
    ∃ e, o = turnDeliver cb tid e := by
  unfold turnTask at h
  rcases List.mem_append.mp h with hgo | hfin
  · exact turnTaskGo_mem cb tid turnId now lines ⟨store, false⟩ o hgo
  · unfold turnTaskFinish at hfin
    split at hfin
    · simp at hfin
    · simp only [List.mem_singleton] at hfin
      exact ⟨fallbackTurnCompleted tid turnId, hfin⟩

/-! ## Claim C5 -/

/-- Claim C5: while a background callback registration exists for a
thread id, a broadcast message whose extracted thread identity equals
that id is sent to the registered channel instead of the main sink; over
a whole reader run no main-sink emission carries that identity; and the
per-turn stdout task of a turn on a registered thread performs no
main-sink delivery at all — zero broadcast events referencing the thread
reach the main sink while the registration is in place. -/
theorem c5_background_routing (tid : String) :
    (∀ (st : ReaderState) (v : Json),
      st.callbacks.contains tid = true → extract_thread_id v = some tid →
      routeBroadcast st v = (st, [ReaderOutput.background tid v])) ∧
    (∀ (st : ReaderState) (ls : List RawLine),
      st.callbacks.contains tid = true →
      ∀ msg, ReaderOutput.emit msg ∈ (readerGo st ls).2 →
        extract_thread_id msg ≠ some tid) ∧
    (∀ (cb : List String) (turnId : String) (now : Nat) (store : ThreadStore)
       (lines : List RawLine),
      cb.contains tid = true →
      ∀ o, o ∈ (turnTask cb tid turnId now store lines).2 →
        isMainSinkDelivery o = false) := by
  refine ⟨?_, ?_, ?_⟩
  · intro st v hreg hext
    unfold routeBroadcast
    simp only [hext]
    rw [if_pos hreg]
  · intro st ls hreg msg h
    exact readerGo_no_emit_for_registered tid ls st hreg msg h
  · intro cb turnId now store lines hreg o h
    rcases turnTask_mem cb tid turnId now store lines o h with ⟨e, rfl⟩
    rw [turnDeliver_registered cb tid e hreg]
    rfl

theorem c5_background_routing_witness :
    routeBroadcast ⟨[], ["T"]⟩
        (.obj [("method", .str "turn/started"),
               ("params", .obj [("threadId", .str "T")])]) =
      (⟨[], ["T"]⟩,
       [ReaderOutput.background "T"
          (.obj [("method", .str "turn/started"),
                 ("params", .obj [("threadId", .str "T")])])]) := by
  exact (c5_background_routing "T").1 ⟨[], ["T"]⟩
    (.obj [("method", .str "turn/started"),
           ("params", .obj [("threadId", .str "T")])])
    (by decide) rfl

/-! ## Helper lemmas about the stream translation table -/

/-- String helper: unequal strings compare `false` under `==`. -/
theorem str_beq_false {a b : String} (h : ¬ a = b) : (a == b) = false := by
  cases hb : a == b
  · rfl
  · exact absurd (eq_of_beq hb) h

/-- A translated canonical event is `turn/completed` exactly when the
source line was a `result` record. -/
theorem parse_stream_terminal_iff (l : RawLine) (tid turnId : String) (e : Json)
    (h : parse_stream_json_line l tid turnId = some e) :
    (((e.get "method").bind Json.asStr) == some "turn/completed")
      = isResultRecord l := by
  unfold parse_stream_json_line at h
  unfold isResultRecord
  cases hp : l.parsed.toOption with
  | none => rw [hp] at h; cases h
  | some event =>
      simp only [hp] at h ⊢
      cases ht : (event.get "type").bind Json.asStr with
      | none => simp only [ht] at h; cases h
      | some et =>
          simp only [ht] at h ⊢
          split at h
          · rename_i h1
            split at h
            · injection h with h
              subst h
              rw [h1]
              rfl
            · cases h
          · rename_i h1
            split at h
            · rename_i h2
              cases hd : event.get "delta" with
              | none => simp only [hd] at h; cases h
              | some delta =>
                  simp only [hd] at h
                  cases hdt : (delta.get "type").bind Json.asStr with
                  | none => simp only [hdt] at h; cases h
                  | some dt =>
                      simp only [hdt] at h
                      split at h
                      · cases htext : (delta.get "text").bind Json.asStr with
                        | none => simp only [htext] at h; cases h
                        | some text =>
                            simp only [htext] at h
                            injection h with h
                            subst h
                            rw [h2]
                            rfl
                      · cases h
            · rename_i h2
              split at h
              · rename_i h3
                cases hb : event.get "content_block" with
                | none => simp only [hb] at h; cases h
                | some block =>
                    simp only [hb] at h
                    cases hbt : (block.get "type").bind Json.asStr with
                    | none => simp only [hbt] at h; cases h
                    | some bt =>
                        simp only [hbt] at h
                        split at h
                        · injection h with h
                          subst h
                          rw [h3]
                          rfl
                        · cases h
              · rename_i h3
                split at h
                · rename_i h4
                  injection h with h
                  subst h
                  rw [h4]
                  rfl
                · rename_i h4
                  split at h
                  · rename_i h5
                    injection h with h
                    subst h
                    rw [h5]
                    rfl
                  · cases h

/-- A line that translates to no event is not a `result` record. -/
theorem parse_stream_none_not_result (l : RawLine) (tid turnId : String)
    (h : parse_stream_json_line l tid turnId = none) :
    isResultRecord l = false := by
  unfold parse_stream_json_line at h
  unfold isResultRecord
  cases hp : l.parsed.toOption with
  | none => rfl
  | some event =>
      simp only [hp] at h ⊢
      cases ht : (event.get "type").bind Json.asStr with
      | none => rfl
      | some et =>
          simp only [ht] at h ⊢
          by_cases hres : et = "result"
          · subst hres
            rw [if_neg (by decide), if_neg (by decide), if_neg (by decide),
                if_neg (by decide), if_pos rfl] at h
            cases h
          · show (some et == some "result") = false
            show (et == "result") = false
            exact str_beq_false hres

/-- The delivery target chosen by `turnDeliver` does not change whether
the delivered event is terminal. -/
theorem isTerminalDelivery_turnDeliver (cb : List String) (tid : String) (e : Json) :
    isTerminalDelivery (turnDeliver cb tid e)
      = (((e.get "method").bind Json.asStr) == some "turn/completed") := by
  unfold turnDeliver
  split <;> rfl

/-- One turn-task step: the `got_result` flag picks up exactly the
`result` records, and exactly the `result` records produce a terminal
delivery. -/
theorem turnTaskStep_got_count (cb : List String) (tid turnId : String)
    (now : Nat) (st : TurnState) (l : RawLine) :
    ((turnTaskStep cb tid turnId now st l).1.gotResult
        = (st.gotResult || isResultRecord l)) ∧
    ((turnTaskStep cb tid turnId now st l).2.countP isTerminalDelivery
        = if isResultRecord l then 1 else 0) := by
  cases hp : parse_stream_json_line l tid turnId with
  | some e =>
      have hterm := parse_stream_terminal_iff l tid turnId e hp
      constructor
      · show (turnTaskStep cb tid turnId now st l).1.gotResult = _
        unfold turnTaskStep
        simp only [hp]
        rw [hterm]
      · show (turnTaskStep cb tid turnId now st l).2.countP isTerminalDelivery = _
        unfold turnTaskStep
        simp only [hp]
        simp [List.countP_cons, isTerminalDelivery_turnDeliver, hterm]
  | none =>
      have hres := parse_stream_none_not_result l tid turnId hp
      constructor
      · show (turnTaskStep cb tid turnId now st l).1.gotResult = _
        unfold turnTaskStep
        simp only [hp]
        rw [hres, Bool.or_false]
      · show (turnTaskStep cb tid turnId now st l).2.countP isTerminalDelivery = _
        unfold turnTaskStep
        simp only [hp]
        rw [hres]
        rfl

/-- Over the whole stream loop: `got_result` records whether any `result`
record appeared, and the number of terminal deliveries equals the number
of `result` records. -/
theorem turnTaskGo_got_count (cb : List String) (tid turnId : String) (now : Nat) :
    ∀ (ls : List RawLine) (st : TurnState),
      ((turnTaskGo cb tid turnId now st ls).1.gotResult
          = (st.gotResult || ls.any isResultRecord)) ∧
      ((turnTaskGo cb tid turnId now st ls).2.countP isTerminalDelivery
          = ls.countP isResultRecord) := by
  intro ls
  induction ls with
  | nil =>
      intro st
      exact ⟨by rw [List.any_nil, Bool.or_false]; rfl, rfl⟩
  | cons l ls ih =>
      intro st
      have hstep := turnTaskStep_got_count cb tid turnId now st l
      have hih := ih (turnTaskStep cb tid turnId now st l).1
      constructor
      · show (turnTaskGo cb tid turnId now (turnTaskStep cb tid turnId now st l).1 ls).1.gotResult = _
        rw [hih.1, hstep.1, List.any_cons, Bool.or_assoc]
      · show ((turnTaskStep cb tid turnId now st l).2
            ++ (turnTaskGo cb tid turnId now (turnTaskStep cb tid turnId now st l).1 ls).2).countP
              isTerminalDelivery = _
        rw [List.countP_append, hstep.2, hih.2, List.countP_cons]
        split <;> omega

/-! ## Claim C2 -/

/-- Claim C2, counterexample: a stream containing two `result` records
makes the per-turn stdout task deliver two `turn/completed` events for
the turn, not exactly one. -/
theorem c2_counterexample_two_results :
    (turnTask [] "t1" "turn1" 0 ⟨[]⟩ [c2ResultLine, c2ResultLine]).2.countP
        isTerminalDelivery = 2 ∧
    ¬ (turnTask [] "t1" "turn1" 0 ⟨[]⟩ [c2ResultLine, c2ResultLine]).2.countP
        isTerminalDelivery = 1 := by
  constructor
  · rfl
  · intro h
    have h2 : (turnTask [] "t1" "turn1" 0 ⟨[]⟩ [c2ResultLine, c2ResultLine]).2.countP
        isTerminalDelivery = 2 := rfl
    rw [h] at h2
    cases h2

/-- Claim C2 as amended: the per-turn stdout task delivers
`max 1 r` terminal `turn/completed` events, where `r` is the number of
`result` records in the stream — exactly one per `result` record when any
is present, otherwise exactly one synthesized `turn/completed` (carrying
the thread id and turn id) appended when the stream ends with no terminal
record observed. -/
theorem c2_terminal_event_guarantee (cb : List String) (tid turnId : String)
    (now : Nat) (store : ThreadStore) (lines : List RawLine) :
    ((turnTask cb tid turnId now store lines).2.countP isTerminalDelivery
        = max 1 (lines.countP isResultRecord)) ∧
    (lines.countP isResultRecord = 0 →
      (turnTask cb tid turnId now store lines).2
        = (turnTaskGo cb tid turnId now ⟨store, false⟩ lines).2
            ++ [turnDeliver cb tid (fallbackTurnCompleted tid turnId)]) := by
  have hgo := turnTaskGo_got_count cb tid turnId now lines ⟨store, false⟩
  have hgot : (turnTaskGo cb tid turnId now ⟨store, false⟩ lines).1.gotResult
      = lines.any isResultRecord := by
    rw [hgo.1]
    exact Bool.false_or _
  have hfin : turnTaskFinish cb tid turnId (turnTaskGo cb tid turnId now ⟨store, false⟩ lines).1
      = (if lines.any isResultRecord then ([] : List TurnOutput)
         else [turnDeliver cb tid (fallbackTurnCompleted tid turnId)]) := by
    unfold turnTaskFinish
    rw [hgot]
  constructor
  · show ((turnTaskGo cb tid turnId now ⟨store, false⟩ lines).2
        ++ turnTaskFinish cb tid turnId
            (turnTaskGo cb tid turnId now ⟨store, false⟩ lines).1).countP
          isTerminalDelivery = _
    rw [List.countP_append, hgo.2, hfin]
    cases hany : lines.any isResultRecord with
    | true =>
        have hpos : 0 < lines.countP isResultRecord := by
          rw [List.countP_pos_iff]
          exact List.any_eq_true.mp hany
        rw [if_pos rfl]
        rw [Nat.max_eq_right hpos]
        rfl
    | false =>
        have hzero : lines.countP isResultRecord = 0 := by
          rw [List.countP_eq_zero]
          intro a ha hpa
          exact (List.any_eq_false.mp hany) a ha hpa
        have h1 : List.countP isTerminalDelivery
            [turnDeliver cb tid (fallbackTurnCompleted tid turnId)] = 1 := by
          rw [List.countP_cons, isTerminalDelivery_turnDeliver]
          rfl
        rw [if_neg (by simp), hzero, h1]
        omega
  · intro h0
    have hany : lines.any isResultRecord = false := by
      cases hany : lines.any isResultRecord with
      | false => rfl
      | true =>
          have hpos : 0 < lines.countP isResultRecord := by
            rw [List.countP_pos_iff]
            exact List.any_eq_true.mp hany
          omega
    show (turnTaskGo cb tid turnId now ⟨store, false⟩ lines).2
        ++ turnTaskFinish cb tid turnId
            (turnTaskGo cb tid turnId now ⟨store, false⟩ lines).1 = _
    rw [hfin, hany]
    rfl

theorem c2_terminal_event_guarantee_witness :
    (turnTask [] "t1" "turn1" 0 ⟨[]⟩ [c2PingLine]).2.countP isTerminalDelivery
      = max 1 ([c2PingLine].countP isResultRecord) ∧
    (turnTask [] "t1" "turn1" 0 ⟨[]⟩ [c2PingLine]).2
      = (turnTaskGo [] "t1" "turn1" 0 ⟨⟨[]⟩, false⟩ [c2PingLine]).2
          ++ [turnDeliver [] "t1" (fallbackTurnCompleted "t1" "turn1")] := by
  have h := c2_terminal_event_guarantee [] "t1" "turn1" 0 ⟨[]⟩ [c2PingLine]
  exact ⟨h.1, h.2 (by decide)⟩

/-! ## Helper lemmas about the thread store as an association list -/

/-- Updating the entry under `key` rewrites exactly the first (and under
the `HashMap` invariant, only) binding of `key`. -/
theorem lookup_updateFirst_self (key : String) (f : ThreadMetadata → ThreadMetadata) :
    ∀ l : List (String × ThreadMetadata),
      List.lookup key (updateFirst key f l) = (List.lookup key l).map f := by
  intro l
  induction l with
  | nil => rfl
  | cons p rest ih =>
      obtain ⟨k, m⟩ := p
      by_cases hk : k = key
      · subst hk
        simp [updateFirst, List.lookup]
      · have hk1 : (k == key) = false := str_beq_false hk
        have hk2 : (key == k) = false := str_beq_false (Ne.symm hk)
        simp [updateFirst, List.lookup, hk1, hk2, ih]

/-- Updating an absent key is a no-op. -/
theorem updateFirst_absent (key : String) (f : ThreadMetadata → ThreadMetadata) :
    ∀ l : List (String × ThreadMetadata),
      List.lookup key l = none → updateFirst key f l = l := by
  intro l
  induction l with
  | nil => intro _; rfl
  | cons p rest ih =>
      obtain ⟨k, m⟩ := p
      intro h
      by_cases hk : k = key
      · subst hk
        simp [List.lookup] at h
      · have hk1 : (k == key) = false := str_beq_false hk
        have hk2 : (key == k) = false := str_beq_false (Ne.symm hk)
        simp only [List.lookup, hk2] at h
        simp [updateFirst, hk1, ih h]

/-- Looking up a key different from the updated one is unaffected. -/
theorem lookup_updateFirst_other (key other : String)
    (f : ThreadMetadata → ThreadMetadata) (hne : other ≠ key) :
    ∀ l : List (String × ThreadMetadata),
      List.lookup other (updateFirst key f l) = List.lookup other l := by
  intro l
  induction l with
  | nil => rfl
  | cons p rest ih =>
      obtain ⟨k, m⟩ := p
      by_cases hk : k = key
      · subst hk
        have h2 : (other == k) = false := str_beq_false hne
        simp [updateFirst, List.lookup, h2]
      · have hk1 : (k == key) = false := str_beq_false hk
        simp [updateFirst, List.lookup, hk1, ih]

/-! ## Claim C4 -/

/-- Claim C4: a `turn/start` on a thread whose stored metadata has no
resumable session id builds the child command without a resume directive;
once the per-turn reader observes an init record carrying session id
`s1`, the store maps the thread to `s1`, and every subsequent
`turn/start` on that thread builds the command with `--resume s1`. -/
theorem c4_resume_directive (store : ThreadStore) (meta : ThreadMetadata)
    (t1 prompt s1 turnId : String) (l : RawLine) (cb : List String)
    (now : Nat) (g : Bool)
    (hmeta : store.threads.lookup t1 = some meta)
    (hsid : meta.claude_session_id = none)
    (hinit : extract_session_id_from_line l = some s1) :
    sessionIdFor store t1 = none ∧
    build_claude_command_args (sessionIdFor store t1) prompt
      = ["-p", "--output-format", "stream-json", "--verbose", prompt] ∧
    sessionIdFor (turnTaskStep cb t1 turnId now ⟨store, g⟩ l).1.store t1 = some s1 ∧
    build_claude_command_args (some s1) prompt
      = ["-p", "--output-format", "stream-json", "--verbose",
         "--resume", s1, prompt] := by
  have h1 : sessionIdFor store t1 = none := by
    unfold sessionIdFor
    rw [hmeta]
    simp [hsid]
  have hstore : (turnTaskStep cb t1 turnId now ⟨store, g⟩ l).1.store
      = ⟨updateFirst t1
          (fun m => { m with claude_session_id := some s1, updated_at := now })
          store.threads⟩ := by
    cases hp : parse_stream_json_line l t1 turnId with
    | some e =>
        unfold turnTaskStep
        simp only [hinit, hp]
    | none =>
        unfold turnTaskStep
        simp only [hinit, hp]
  refine ⟨h1, by rw [h1]; rfl, ?_, rfl⟩
  rw [hstore]
  unfold sessionIdFor
  show (List.lookup t1 (updateFirst t1 _ store.threads)).bind _ = some s1
  rw [lookup_updateFirst_self, hmeta]
  rfl

theorem c4_resume_directive_witness :
    sessionIdFor c4Store "t1" = none ∧
    build_claude_command_args (sessionIdFor c4Store "t1") "hello"
      = ["-p", "--output-format", "stream-json", "--verbose", "hello"] ∧
    sessionIdFor (turnTaskStep [] "t1" "turn1" 9 ⟨c4Store, false⟩ c4InitLine).1.store "t1"
      = some "s1" ∧
    build_claude_command_args (some "s1") "hello"
      = ["-p", "--output-format", "stream-json", "--verbose",
         "--resume", "s1", "hello"] := by
  exact c4_resume_directive c4Store c4Meta "t1" "hello" "s1" "turn1" c4InitLine [] 9
    false rfl rfl rfl

/-! ## Claim C6 -/

/-- Claim C6, counterexample: the record persisted for a stored thread
does not use the field names the specification claims.  The derived
serde `Serialize` of `ThreadMetadata` carries no rename attribute, so the
persisted record for `t1` has key `claude_session_id` (snake case) and no
key `externalSessionId`, `createdAt` or `updatedAt`. -/
theorem c6_counterexample_field_names :
    ((ThreadStore.toJson c6Store).get "threads").bind (fun t => t.get "t1")
      = some (ThreadMetadata.toJson c6Meta) ∧
    specThreadRecordShape (ThreadMetadata.toJson c6Meta) = false ∧
    (ThreadMetadata.toJson c6Meta).get "externalSessionId" = none ∧
    (ThreadMetadata.toJson c6Meta).get "createdAt" = none ∧
    (ThreadMetadata.toJson c6Meta).get "claude_session_id"
      = some (.str "sess-1") := by
  exact ⟨rfl, rfl, rfl, rfl, rfl⟩

/-- Claim C6 as amended: serializing the Thread Store produces, for every
stored thread, a document whose single `threads` object maps each
thread id to a record with exactly the five Rust field names —
`claude_session_id` (string or null), `name` (string or null),
`created_at` (integer), `updated_at` (integer), `archived` (boolean). -/
theorem c6_persisted_document_shape (store : ThreadStore) :
    ThreadStore.toJson store
      = .obj [("threads", .obj (store.threads.map (fun p => (p.1, p.2.toJson))))] ∧
    ∀ p : String × ThreadMetadata, p ∈ store.threads →
      codeThreadRecordShape (ThreadMetadata.toJson p.2) = true := by
  refine ⟨rfl, ?_⟩
  intro p _
  obtain ⟨k, m⟩ := p
  obtain ⟨sid, nm, ca, ua, ar⟩ := m
  cases sid <;> cases nm <;> rfl

theorem c6_persisted_document_shape_witness :
    codeThreadRecordShape (ThreadMetadata.toJson c6Meta) = true := by
  exact (c6_persisted_document_shape c6Store).2 ("t1", c6Meta)
    (List.mem_singleton.mpr rfl)

/-! ## Claim C9: serde round-trip of the thread store -/

/-- Rust `Value::as_u64` succeeds on any `u64`-ranged natural. -/
theorem asU64_num_nat (n : Nat) (h : n < 2 ^ 64) :
    Json.asU64 (.num n) = some n := by
  simp only [Json.asU64]
  rw [if_pos ⟨Int.natCast_nonneg n, by exact_mod_cast h⟩]
  simp

/-- One metadata record survives serialize-then-deserialize. -/
theorem metadata_roundtrip (m : ThreadMetadata)
    (h1 : m.created_at < 2 ^ 64) (h2 : m.updated_at < 2 ^ 64) :
    ThreadMetadata.fromJson (ThreadMetadata.toJson m) = some m := by
  obtain ⟨sid, nm, ca, ua, ar⟩ := m
  have hca : Json.asU64 (.num (ca : Int)) = some ca := asU64_num_nat ca h1
  have hua : Json.asU64 (.num (ua : Int)) = some ua := asU64_num_nat ua h2
  have e1 : decodeOptString (some (optStrJson sid)) = some sid := by
    cases sid <;> rfl
  have e2 : decodeOptString (some (optStrJson nm)) = some nm := by
    cases nm <;> rfl
  show ThreadMetadata.fromJson (.obj (metaFields sid nm ca ua ar)) = _
  simp only [ThreadMetadata.fromJson]
  rw [show List.lookup "claude_session_id" (metaFields sid nm ca ua ar)
        = some (optStrJson sid) from rfl,
      show List.lookup "name" (metaFields sid nm ca ua ar)
        = some (optStrJson nm) from rfl,
      show List.lookup "created_at" (metaFields sid nm ca ua ar)
        = some (.num (ca : Int)) from rfl,
      show List.lookup "updated_at" (metaFields sid nm ca ua ar)
        = some (.num (ua : Int)) from rfl,
      show List.lookup "archived" (metaFields sid nm ca ua ar)
        = some (.bool ar) from rfl,
      show decodeU64 (some (.num (ca : Int))) = Json.asU64 (.num (ca : Int)) from rfl,
      show decodeU64 (some (.num (ua : Int))) = Json.asU64 (.num (ua : Int)) from rfl,
      hca, hua, e1, e2,
      show decodeBool (some (.bool ar)) = some ar from rfl]

/-- The serialized `threads` map decodes back to the original entry
list. -/
theorem decodeThreads_map (l : List (String × ThreadMetadata))
    (hb : ∀ p ∈ l, p.2.created_at < 2 ^ 64 ∧ p.2.updated_at < 2 ^ 64) :
    decodeThreads (l.map (fun p => (p.1, p.2.toJson))) = some l := by
  induction l with
  | nil => rfl
  | cons p rest ih =>
      obtain ⟨k, m⟩ := p
      have hm := metadata_roundtrip m
        (hb (k, m) (List.mem_cons_self _ _)).1
        (hb (k, m) (List.mem_cons_self _ _)).2
      have hrest := ih (fun q hq => hb q (List.mem_cons_of_mem _ hq))
      simp only [List.map_cons, decodeThreads, hm, hrest]

/-- Claim C9: persisting the Thread Store and reloading it yields an
identical thread mapping — `serde` deserialization of the serialized
document returns the very same store (timestamps are `u64` in the
source, whence the range hypotheses). -/
theorem c9_thread_store_roundtrip (s : ThreadStore)
    (hb : ∀ p ∈ s.threads, p.2.created_at < 2 ^ 64 ∧ p.2.updated_at < 2 ^ 64) :
    ThreadStore.fromJson (ThreadStore.toJson s) = some s := by
  obtain ⟨threads⟩ := s
  simp only [ThreadStore.toJson, ThreadStore.fromJson]
  rw [show List.lookup "threads"
        [("threads", Json.obj (threads.map (fun p => (p.1, p.2.toJson))))]
        = some (Json.obj (threads.map (fun p => (p.1, p.2.toJson)))) from rfl]
  show (match decodeThreads (threads.map (fun p => (p.1, p.2.toJson))) with
        | some ms => some (⟨ms⟩ : ThreadStore)
        | none => none) = some (⟨threads⟩ : ThreadStore)
  rw [decodeThreads_map threads hb]

theorem c9_thread_store_roundtrip_witness :
    ThreadStore.fromJson (ThreadStore.toJson c9Store) = some c9Store := by
  exact c9_thread_store_roundtrip c9Store (by decide)

/-! ## Claim C8 -/

/-- After marking the (unique, by the `HashMap` invariant) entry of `key`
archived, `key` no longer appears among the listed (non-archived) thread
ids. -/
theorem archived_not_listed (key : String) (now : Nat) :
    ∀ l : List (String × ThreadMetadata),
      (l.map Prod.fst).Nodup → (List.lookup key l).isSome = true →
      key ∉ ((updateFirst key
          (fun m => { m with archived := true, updated_at := now }) l).filter
            (fun p => !p.2.archived)).map Prod.fst := by
  intro l
  induction l with
  | nil =>
      intro _ hm
      cases hm
  | cons p rest ih =>
      obtain ⟨k, m⟩ := p
      intro hnd hm
      rw [List.map_cons, List.nodup_cons] at hnd
      by_cases hk : k = key
      · subst hk
        have hupd : updateFirst k
              (fun m => { m with archived := true, updated_at := now }) ((k, m) :: rest)
            = (k, { m with archived := true, updated_at := now }) :: rest := by
          simp [updateFirst]
        rw [hupd, List.filter_cons, if_neg (fun h => Bool.noConfusion h)]
        intro hmem
        rcases List.mem_map.mp hmem with ⟨x, hx, hfst⟩
        have hx' : x ∈ rest := List.mem_of_mem_filter hx
        have hmm : x.1 ∈ rest.map Prod.fst := List.mem_map_of_mem Prod.fst hx'
        rw [hfst] at hmm
        exact hnd.1 hmm
      · have hk1 : (k == key) = false := str_beq_false hk
        have hk2 : (key == k) = false := str_beq_false (Ne.symm hk)
        have hupd : updateFirst key
              (fun m => { m with archived := true, updated_at := now }) ((k, m) :: rest)
            = (k, m) :: updateFirst key
                (fun m => { m with archived := true, updated_at := now }) rest := by
          simp [updateFirst, hk1]
        have hm' : (List.lookup key rest).isSome = true := by
          simpa [List.lookup, hk2] using hm
        have hrec := ih hnd.2 hm'
        rw [hupd, List.filter_cons]
        by_cases hf : (!m.archived) = true
        · rw [if_pos hf, List.map_cons]
          intro hmem
          rcases List.mem_cons.mp hmem with h1 | h2
          · exact hk h1.symm
          · exact hrec h2
        · rw [if_neg hf]
          exact hrec

/-- A thread present in the store can be resumed. -/
theorem resume_ok_of_mem (store : ThreadStore) (tid : String)
    (h : (store.threads.lookup tid).isSome = true) :
    handle_thread_resume store (.obj [("threadId", .str tid)])
      = .ok (threadIdResult tid) := by
  unfold handle_thread_resume
  rw [show ((Json.obj [("threadId", Json.str tid)]).get "threadId").bind Json.asStr
        = some tid from rfl]
  show (if (store.threads.lookup tid).isSome
        then Except.ok (threadIdResult tid)
        else Except.error "thread not found") = _
  rw [if_pos h]

/-- Claim C8: after `thread/archive` succeeds for thread T, T no longer
appears in the `thread/list` output (which filters archived records), but
the record of T remains in the store (marked archived, with the updated
timestamp) and `thread/resume` with that id still succeeds. -/
theorem c8_archive_semantics (store : ThreadStore) (meta : ThreadMetadata)
    (tid : String) (now : Nat)
    (hnd : (store.threads.map Prod.fst).Nodup)
    (hmem : store.threads.lookup tid = some meta) :
    (handle_thread_archive store (.obj [("threadId", .str tid)]) now).2
      = .ok okEmptyResult ∧
    (handle_thread_archive store (.obj [("threadId", .str tid)]) now).1.threads.lookup tid
      = some { meta with archived := true, updated_at := now } ∧
    tid ∉ listedThreadIds
      (handle_thread_archive store (.obj [("threadId", .str tid)]) now).1 ∧
    handle_thread_resume
        (handle_thread_archive store (.obj [("threadId", .str tid)]) now).1
        (.obj [("threadId", .str tid)])
      = .ok (threadIdResult tid) := by
  have hb : (handle_thread_archive store (.obj [("threadId", .str tid)]) now).1.threads.lookup tid
      = some { meta with archived := true, updated_at := now } := by
    show (updateFirst tid
        (fun m => { m with archived := true, updated_at := now })
        store.threads).lookup tid = _
    rw [lookup_updateFirst_self, hmem]
    rfl
  refine ⟨rfl, hb, ?_, ?_⟩
  · show tid ∉ ((updateFirst tid
        (fun m => { m with archived := true, updated_at := now })
        store.threads).filter (fun p => !p.2.archived)).map Prod.fst
    exact archived_not_listed tid now store.threads hnd (by rw [hmem]; rfl)
  · exact resume_ok_of_mem _ tid (by rw [hb]; rfl)

theorem c8_archive_semantics_witness :
    (handle_thread_archive c8Store c8Params 99).2 = .ok okEmptyResult ∧
    (handle_thread_archive c8Store c8Params 99).1.threads.lookup "tt"
      = some ⟨some "sess-8", some "Archive me", 10, 99, true⟩ ∧
    "tt" ∉ listedThreadIds (handle_thread_archive c8Store c8Params 99).1 ∧
    handle_thread_resume (handle_thread_archive c8Store c8Params 99).1 c8Params
      = .ok (threadIdResult "tt") := by
  exact c8_archive_semantics c8Store c8Meta "tt" 99 (by decide) rfl

/-! ## Claim C10 -/

/-- Claim C10: for a thread id absent from the store, `thread/archive`
and `thread/name/set` return the empty success result and leave the
thread mapping unchanged, while `thread/resume` and `thread/fork` return
the error "thread not found" and also leave the store unchanged. -/
theorem c10_absent_thread_handlers (store : ThreadStore) (tid new_id : String)
    (params : Json) (now : Nat)
    (habsent : store.threads.lookup tid = none)
    (hp : (params.get "threadId").bind Json.asStr = some tid) :
    handle_thread_archive store params now = (store, .ok okEmptyResult) ∧
    handle_thread_name_set store params now = (store, .ok okEmptyResult) ∧
    handle_thread_resume store params = .error "thread not found" ∧
    handle_thread_fork store params new_id now
      = (store, .error "thread not found") := by
  refine ⟨?_, ?_, ?_, ?_⟩
  · unfold handle_thread_archive
    simp only [hp]
    rw [updateFirst_absent _ _ _ habsent]
  · unfold handle_thread_name_set
    simp only [hp]
    rw [updateFirst_absent _ _ _ habsent]
  · unfold handle_thread_resume
    simp only [hp]
    rw [habsent]
    rfl
  · unfold handle_thread_fork
    simp only [hp, habsent]

theorem c10_absent_thread_handlers_witness :
    handle_thread_archive c10Store c10Params 5 = (c10Store, .ok okEmptyResult) ∧
    handle_thread_name_set c10Store c10Params 5 = (c10Store, .ok okEmptyResult) ∧
    handle_thread_resume c10Store c10Params = .error "thread not found" ∧
    handle_thread_fork c10Store c10Params "new" 5
      = (c10Store, .error "thread not found") := by
  exact c10_absent_thread_handlers c10Store "zz" "new" c10Params 5 rfl rfl

/-! ## Claim C7 -/

/-- Claim C7, counterexample: interrupting a turn whose transient process
has produced no output kills the process and ends the stream, yet the
per-turn stdout task — which nothing cancels — still delivers the
synthesized `turn/completed` for that very turn afterwards, so a later
event for the turn does reach the sink. -/
theorem c7_counterexample_event_after_interrupt :
    turnTaskAfterInterrupt [] "t1" "turn1" 0 ⟨[]⟩ [] []
      = [TurnOutput.emit (fallbackTurnCompleted "t1" "turn1")] ∧
    isTerminalDelivery (TurnOutput.emit (fallbackTurnCompleted "t1" "turn1"))
      = true := by
  exact ⟨rfl, rfl⟩

/-- Claim C7 as amended: `turn/interrupt` clears the active-child slot,
kills the process tree and returns the empty success result, but it does
not cancel the per-turn stdout task: the task drains any remaining lines
and, when no `result` record occurred in the whole stream, delivers
exactly one further terminal event for the turn — the synthesized
`turn/completed` — after which nothing else follows. -/
theorem c7_interrupt_behavior (active : Bool) (cb : List String)
    (tid turnId : String) (now : Nat) (store : ThreadStore)
    (processed remaining : List RawLine)
    (hnores : (processed ++ remaining).any isResultRecord = false) :
    turn_interrupt active = (false, .ok okEmptyResult) ∧
    turnTaskAfterInterrupt cb tid turnId now store processed remaining
      = (turnTaskGo cb tid turnId now
          (turnTaskGo cb tid turnId now ⟨store, false⟩ processed).1 remaining).2
        ++ [turnDeliver cb tid (fallbackTurnCompleted tid turnId)] ∧
    (turnTaskAfterInterrupt cb tid turnId now store processed remaining).countP
        isTerminalDelivery = 1 := by
  rw [List.any_append] at hnores
  have hanyP : processed.any isResultRecord = false := by
    cases h : processed.any isResultRecord
    · rfl
    · rw [h] at hnores
      cases hnores
  have hanyR : remaining.any isResultRecord = false := by
    cases h : remaining.any isResultRecord
    · rfl
    · rw [h, Bool.or_true] at hnores
      cases hnores
  have h1 := turnTaskGo_got_count cb tid turnId now processed ⟨store, false⟩
  have hgot1 : (turnTaskGo cb tid turnId now ⟨store, false⟩ processed).1.gotResult
      = false := by
    rw [h1.1, hanyP]
    rfl
  have h2 := turnTaskGo_got_count cb tid turnId now remaining
    (turnTaskGo cb tid turnId now ⟨store, false⟩ processed).1
  have hgot2 : (turnTaskGo cb tid turnId now
      (turnTaskGo cb tid turnId now ⟨store, false⟩ processed).1 remaining).1.gotResult
      = false := by
    rw [h2.1, hgot1, hanyR]
    rfl
  have hfin : turnTaskFinish cb tid turnId
      (turnTaskGo cb tid turnId now
        (turnTaskGo cb tid turnId now ⟨store, false⟩ processed).1 remaining).1
      = [turnDeliver cb tid (fallbackTurnCompleted tid turnId)] := by
    unfold turnTaskFinish
    rw [hgot2]
    rfl
  have heq : turnTaskAfterInterrupt cb tid turnId now store processed remaining
      = (turnTaskGo cb tid turnId now
          (turnTaskGo cb tid turnId now ⟨store, false⟩ processed).1 remaining).2
        ++ [turnDeliver cb tid (fallbackTurnCompleted tid turnId)] := by
    unfold turnTaskAfterInterrupt
    show (turnTaskGo cb tid turnId now
        (turnTaskGo cb tid turnId now ⟨store, false⟩ processed).1 remaining).2
      ++ turnTaskFinish cb tid turnId
        (turnTaskGo cb tid turnId now
          (turnTaskGo cb tid turnId now ⟨store, false⟩ processed).1 remaining).1 = _
    rw [hfin]
  refine ⟨rfl, heq, ?_⟩
  rw [heq, List.countP_append, h2.2]
  have hzeroR : remaining.countP isResultRecord = 0 := by
    rw [List.countP_eq_zero]
    intro a ha hpa
    exact (List.any_eq_false.mp hanyR) a ha hpa
  have hone : List.countP isTerminalDelivery
      [turnDeliver cb tid (fallbackTurnCompleted tid turnId)] = 1 := by
    rw [List.countP_cons, isTerminalDelivery_turnDeliver]
    rfl
  rw [hzeroR, hone]

theorem c7_interrupt_behavior_witness :
    turn_interrupt true = (false, .ok okEmptyResult) ∧
    turnTaskAfterInterrupt [] "t1" "turn1" 0 ⟨[]⟩ [] []
      = (turnTaskGo [] "t1" "turn1" 0
          (turnTaskGo [] "t1" "turn1" 0 ⟨⟨[]⟩, false⟩ []).1 []).2
        ++ [turnDeliver [] "t1" (fallbackTurnCompleted "t1" "turn1")] ∧
    (turnTaskAfterInterrupt [] "t1" "turn1" 0 ⟨[]⟩ [] []).countP
        isTerminalDelivery = 1 := by
  exact c7_interrupt_behavior true [] "t1" "turn1" 0 ⟨[]⟩ [] [] (by decide)
